import Mathlib

/-!
Shallow embedding of the data pipeline of the COVID-19 data explorer
dashboard (src/app.py): the dataset loader (lines 23-36), the
country/date-range view filter (lines 73-77) and the KPI summary
block (lines 96-99).

Modelling choices.  A pandas DataFrame is a `RawTable`: per-column
presence flags plus a list of rows whose fields are meaningful only
when the corresponding flag is set.  Dates are integers (only their
total order matters).  Errors the script can raise - an uncaught
pandas `KeyError` naming a missing column, a Python `ValueError` from
`int(nan)` or `NaT.strftime` - are an explicit error type returned
through `Except`.  `df.sort_values(["Country", "Date"])` sorts the
rows lexicographically by the pair (Country, Date) with a stable
sort (pandas multi-key sorts use `numpy.lexsort`, which is stable);
it is modelled by `List.insertionSort`, which is stable.
-/

/-- One row of the dataframe.  A field is meaningful only when the
corresponding column-presence flag of the enclosing table is set. -/
structure Row where
  country : String
  date : Int
  confirmed : Int
  newCases : Int
  deaths : Int
  deriving Repr, DecidableEq

/-- A raw table as produced by `pd.read_csv`: which columns are
present, and the rows. -/
structure RawTable where
  hasCountry : Bool
  hasDate : Bool
  hasConfirmed : Bool
  hasNewCases : Bool
  rows : List Row
  deriving Repr, DecidableEq

/-- An error the script can raise: an uncaught pandas `KeyError`
naming a missing column, or a Python `ValueError`. -/
inductive PyError where
  | keyError (col : String)
  | valueError (msg : String)
  deriving Repr, DecidableEq

/-- The projection of a row to its Country, Date and Confirmed
fields: the data that the loader reads and never modifies. -/
def cdc (r : Row) : String × Int × Int := (r.country, r.date, r.confirmed)

/-- Strict lexicographic comparison of character lists, the order in
which pandas sorts string keys. -/
def charsLt : List Char → List Char → Bool
  | _, [] => false
  | [], _ :: _ => true
  | a :: as, b :: bs => if a = b then charsLt as bs else decide (a < b)

/-- Lexicographic order on (Country, Date, _) triples, comparing the
country first and the date second; the third component is ignored. -/
def projLE (a b : String × Int × Int) : Prop :=
  charsLt a.1.data b.1.data = true ∨ (a.1 = b.1 ∧ a.2.1 ≤ b.2.1)

/-- The row order of `df.sort_values(["Country", "Date"])`:
lexicographic on the pair (Country, Date). -/
def rowLE (r s : Row) : Prop := projLE (cdc r) (cdc s)

instance (a b : String × Int × Int) : Decidable (projLE a b) :=
  inferInstanceAs
    (Decidable (charsLt a.1.data b.1.data = true ∨ (a.1 = b.1 ∧ a.2.1 ≤ b.2.1)))

instance : DecidableRel rowLE :=
  fun r s => inferInstanceAs (Decidable (projLE (cdc r) (cdc s)))

instance : IsTotal Row rowLE where
  total r s := by
    have tri : ∀ as bs : List Char,
        charsLt as bs = true ∨ as = bs ∨ charsLt bs as = true := by
      intro as
      induction as with
      | nil =>
        intro bs
        cases bs with
        | nil => exact Or.inr (Or.inl rfl)
        | cons b bs => exact Or.inl rfl
      | cons a as ih =>
        intro bs
        cases bs with
        | nil => exact Or.inr (Or.inr rfl)
        | cons b bs =>
          by_cases hab : a = b
          · subst hab
            rcases ih bs with h | h | h
            · exact Or.inl (by simpa [charsLt] using h)
            · exact Or.inr (Or.inl (by rw [h]))
            · exact Or.inr (Or.inr (by simpa [charsLt] using h))
          · rcases lt_trichotomy a b with h | h | h
            · exact Or.inl (by simp [charsLt, hab, h])
            · exact absurd h hab
            · exact Or.inr (Or.inr (by simp [charsLt, Ne.symm hab, h]))
    rcases tri r.country.data s.country.data with h | h | h
    · exact Or.inl (Or.inl h)
    · have hc : r.country = s.country := congrArg String.mk h
      rcases le_total r.date s.date with hd | hd
      · exact Or.inl (Or.inr ⟨hc, hd⟩)
      · exact Or.inr (Or.inr ⟨hc.symm, hd⟩)
    · exact Or.inr (Or.inl h)

instance : IsTrans Row rowLE where
  trans a b c hab hbc := by
    have ctrans : ∀ as bs cs : List Char, charsLt as bs = true →
        charsLt bs cs = true → charsLt as cs = true := by
      intro as
      induction as with
      | nil =>
        intro bs cs h1 h2
        cases bs with
        | nil => simp [charsLt] at h1
        | cons b bs =>
          cases cs with
          | nil => simp [charsLt] at h2
          | cons c cs => simp [charsLt]
      | cons a as ih =>
        intro bs cs h1 h2
        cases bs with
        | nil => simp [charsLt] at h1
        | cons b bs =>
          cases cs with
          | nil => simp [charsLt] at h2
          | cons c cs =>
            by_cases hab : a = b <;> by_cases hbc : b = c
            · subst hab; subst hbc
              simp only [charsLt, if_pos rfl] at h1 h2 ⊢
              exact ih bs cs h1 h2
            · subst hab
              simp [charsLt, hbc] at h2 ⊢
              exact h2
            · subst hbc
              simp [charsLt, hab] at h1 ⊢
              exact h1
            · simp [charsLt, hab] at h1
              simp [charsLt, hbc] at h2
              have hac : a < c := lt_trans h1 h2
              simp [charsLt, ne_of_lt hac, hac]
    rcases hab with h1 | ⟨e1, d1⟩
    · rcases hbc with h2 | ⟨e2, d2⟩
      · exact Or.inl (ctrans _ _ _ h1 h2)
      · rw [show (cdc b).1 = (cdc c).1 from e2] at h1
        exact Or.inl h1
    · rcases hbc with h2 | ⟨e2, d2⟩
      · rw [show (cdc b).1 = (cdc a).1 from e1.symm] at h2
        exact Or.inl h2
      · exact Or.inr ⟨e1.trans e2, d1.trans d2⟩

/-- The grouped diff `df.groupby("Country")["Confirmed"].diff().fillna(0)`
evaluated over a frame sorted by (Country, Date), where each group is
contiguous: a row's value is its Confirmed minus the Confirmed of the
previous row when that row belongs to the same country, and the NaN of
the first row of each group is filled with 0.  The accumulator holds
the country and Confirmed value of the previous row, if any. -/
def diffAux : Option (String × Int) → List Row → List Row
  | _, [] => []
  | none, r :: rs =>
      { r with newCases := 0 } :: diffAux (some (r.country, r.confirmed)) rs
  | some (c, v), r :: rs =>
      { r with newCases := if c = r.country then r.confirmed - v else 0 } ::
        diffAux (some (r.country, r.confirmed)) rs

/-- The grouped diff started with no previous row. -/
def computeDiff (l : List Row) : List Row := diffAux none l

/-- Line 31 of src/app.py: `df.sort_values(["Country", "Date"])`. -/
def sortRows (l : List Row) : List Row := List.insertionSort rowLE l

/-- Lines 31-32 of src/app.py: sort by Country then Date, then the
grouped diff with `fillna(0)`. -/
def deriveNewCases (l : List Row) : List Row := computeDiff (sortRows l)

/-- The loader `load_data` (src/app.py lines 23-36), after the csv
read: `pd.to_datetime(df["Date"])` raises `KeyError` when the Date
column is absent; then, when New_Cases is absent, it is derived from
Confirmed when that column is present (the sort raises `KeyError`
when Country is absent), and set to 0 uniformly otherwise. -/
def load (t : RawTable) : Except PyError (List Row) :=
  if t.hasDate = false then Except.error (PyError.keyError "Date")
  else if t.hasNewCases = true then Except.ok t.rows
  else if t.hasConfirmed = true then
    if t.hasCountry = false then Except.error (PyError.keyError "Country")
    else Except.ok (deriveNewCases t.rows)
  else Except.ok (t.rows.map fun r => { r with newCases := 0 })

/-- Whether a loader result is a success. -/
def isOk : Except PyError (List Row) → Bool
  | Except.ok _ => true
  | Except.error _ => false

/-- The row predicate of the boolean-mask filter of lines 73-77. -/
def matchesSel (c : String) (lo hi : Int) (r : Row) : Bool :=
  r.country == c && decide (lo ≤ r.date) && decide (r.date ≤ hi)

/-- Lines 73-77 of src/app.py:
`df = df_all[(Country == country) & (Date >= lower) & (Date <= upper)]`. -/
def filterView (rows : List Row) (c : String) (lo hi : Int) : List Row :=
  rows.filter (matchesSel c lo hi)

/-- The shared state of the script around the filter: the loaded
Observation Table `df_all` and the filtered view `df`. -/
structure DashState where
  dfAll : List Row
  df : List Row
  deriving Repr, DecidableEq

/-- Executing lines 73-77 as a state transformer: the result of the
boolean-mask selection over `df_all` is bound to `df`; `df_all` is
only read. -/
def runFilter (s : DashState) (c : String) (lo hi : Int) : DashState :=
  { s with df := filterView s.dfAll c lo hi }

/-- The four KPI scalars of lines 96-104. -/
structure Summary where
  totalCases : Int
  maxDaily : Int
  avgDaily : Int
  lastDate : Int
  deriving Repr, DecidableEq

/-- Python `int(series.max())`: the max of an empty pandas series is
NaN, and `int(nan)` raises a `ValueError`. -/
def intOfMax (xs : List Int) : Except PyError Int :=
  match xs.max? with
  | none => Except.error (PyError.valueError "cannot convert float NaN to integer")
  | some v => Except.ok v

/-- Python `int(series.mean())`: the mean of an empty series is NaN
and `int(nan)` raises a `ValueError`; otherwise the mean truncated
toward zero (`int()` truncates; the floating-point rounding of the
mean is abstracted to exact division, on which no claim depends). -/
def intOfMean (xs : List Int) : Except PyError Int :=
  match xs with
  | [] => Except.error (PyError.valueError "cannot convert float NaN to integer")
  | _ => Except.ok (Int.tdiv xs.sum (xs.length : Int))

/-- Line 99: `df["Date"].max().strftime(...)`: the max of an empty
datetime series is NaT, and `NaT.strftime` raises a `ValueError`;
otherwise the latest date (its string formatting is abstracted). -/
def lastDateOf (xs : List Int) : Except PyError Int :=
  match xs.max? with
  | none => Except.error (PyError.valueError "NaTType does not support strftime")
  | some v => Except.ok v

/-- The KPI block, lines 96-99, evaluated in program order over the
view: `total_cases` (guarded only on presence of the Confirmed
column), `max_daily`, `avg_daily`, `last_date`. -/
def computeSummary (vw : List Row) (hasConf : Bool) : Except PyError Summary := do
  let total ← if hasConf then intOfMax (vw.map Row.confirmed) else pure 0
  let maxD ← intOfMax (vw.map Row.newCases)
  let avgD ← intOfMean (vw.map Row.newCases)
  let lastD ← lastDateOf (vw.map Row.date)
  pure ⟨total, maxD, avgD, lastD⟩

/-- The relation the grouped diff establishes between two adjacent
rows of its output: the second row's New_Cases is its Confirmed minus
the first row's Confirmed when both belong to the same country, and 0
when the second row opens a new country group. -/
def diffRel (a b : Row) : Prop :=
  b.newCases = if a.country = b.country then b.confirmed - a.confirmed else 0

/-- Example rows from the testable properties of the spec: a single
country with Confirmed values [10, 15, 15, 22] on four consecutive
dates.  The New_Cases field is arbitrary, as that column is absent. -/
def exRows : List Row :=
  [⟨"X", 1, 10, 0, 0⟩, ⟨"X", 2, 15, 0, 0⟩, ⟨"X", 3, 15, 0, 0⟩, ⟨"X", 4, 22, 0, 0⟩]

/-- The example table: Country, Date and Confirmed present, New_Cases absent. -/
def exTable : RawTable := ⟨true, true, true, false, exRows⟩

/-- A one-row table used to exercise the empty-view summary: its only
row has date 5, outside the range [10, 20]. -/
def c2Rows : List Row := [⟨"A", 5, 100, 7, 1⟩]

/-- A one-row table whose row falls inside [0, 10] but, trivially,
inside no range with reversed bounds. -/
def c3Rows : List Row := [⟨"A", 5, 100, 4, 2⟩]

/-- A table missing the Country column but carrying New_Cases. -/
def c4NoCountryTable : RawTable := ⟨false, true, true, true, [⟨"", 3, 9, 2, 0⟩]⟩

/-- A table missing the Date column. -/
def c4NoDateTable : RawTable := ⟨true, false, true, false, []⟩

/-- A table missing Country with New_Cases absent and Confirmed present. -/
def c4NoCountryConfTable : RawTable := ⟨false, true, true, false, [⟨"B", 1, 5, 0, 0⟩]⟩

/-- A table missing Country, New_Cases and Confirmed alike. -/
def c4NeitherTable : RawTable := ⟨false, true, false, false, [⟨"B", 1, 5, 9, 0⟩]⟩

/-- A table with both New_Cases and Confirmed columns absent and
varied values in the remaining columns. -/
def c5Table : RawTable := ⟨true, true, false, false, [⟨"A", 1, 7, 9, 3⟩, ⟨"B", 2, 8, 5, 4⟩]⟩

/-- A three-row, two-country table whose dates span [1, 3]. -/
def c6Rows : List Row := [⟨"A", 1, 3, 1, 0⟩, ⟨"B", 2, 4, 1, 0⟩, ⟨"A", 3, 6, 2, 0⟩]

/-- A two-country table containing no row for country Z. -/
def c7Rows : List Row := [⟨"A", 1, 3, 1, 0⟩, ⟨"B", 2, 4, 1, 0⟩]

/-! Helper lemmas about the grouped diff and the sort. -/

theorem diffAux_map_cdc (l : List Row) : ∀ p, (diffAux p l).map cdc = l.map cdc := by
  induction l with
  | nil => intro p; rcases p with _ | ⟨c, v⟩ <;> rfl
  | cons r rs ih => intro p; rcases p with _ | ⟨c, v⟩ <;> simp [diffAux, cdc, ih]

theorem sorted_of_map_cdc_eq {l1 l2 : List Row} (h : l1.map cdc = l2.map cdc)
    (hs : List.Sorted rowLE l1) : List.Sorted rowLE l2 := by
  have h1 : List.Pairwise projLE (l1.map cdc) :=
    List.pairwise_map.mpr (hs.imp fun hab => hab)
  have h2 : List.Pairwise projLE (l2.map cdc) := h ▸ h1
  exact (List.pairwise_map.mp h2).imp fun hab => hab

theorem sorted_computeDiff {l : List Row} (hs : List.Sorted rowLE l) :
    List.Sorted rowLE (computeDiff l) :=
  sorted_of_map_cdc_eq (diffAux_map_cdc l none).symm hs

theorem diffAux_chain : ∀ (l : List Row) (p), List.Chain' diffRel (diffAux p l)
  | [], p => by rcases p with _ | ⟨c, v⟩ <;> exact List.chain'_nil
  | [r], p => by rcases p with _ | ⟨c, v⟩ <;> simp [diffAux]
  | r :: x :: xs, p => by
    have h := diffAux_chain (x :: xs) (some (r.country, r.confirmed))
    rcases p with _ | ⟨c, v⟩ <;>
      · simp only [diffAux] at h ⊢
        exact List.chain'_cons.mpr ⟨by simp [diffRel], h⟩

theorem computeDiff_head_zero (l : List Row) :
    ∀ a, (computeDiff l).head? = some a → a.newCases = 0 := by
  cases l with
  | nil => intro a h; simp [computeDiff, diffAux] at h
  | cons r rs =>
    intro a h
    simp only [computeDiff, diffAux, List.head?_cons, Option.some.injEq] at h
    subst h
    rfl

theorem diffAux_idem (l : List Row) : ∀ p, diffAux p (diffAux p l) = diffAux p l := by
  induction l with
  | nil => intro p; rcases p with _ | ⟨c, v⟩ <;> rfl
  | cons r rs ih => intro p; rcases p with _ | ⟨c, v⟩ <;> simp [diffAux, ih]

/-! Claim theorems. -/

/-- Claim C1: when New_Cases is absent and Confirmed (and Country) are
present, the loader returns the rows sorted by (Country, Date), with
the Country/Date/Confirmed data a permutation of the input, the first
output row's New_Cases zero, and every adjacent output pair related by
the grouped diff: a row's New_Cases is its Confirmed minus the
previous row's Confirmed within the same country, and zero at the
start of each country group. -/
theorem new_cases_grouped_diff (t : RawTable) (hd : t.hasDate = true)
    (hn : t.hasNewCases = false) (hc : t.hasConfirmed = true)
    (hco : t.hasCountry = true) :
    load t = Except.ok (deriveNewCases t.rows) ∧
    List.Sorted rowLE (deriveNewCases t.rows) ∧
    ((deriveNewCases t.rows).map cdc).Perm (t.rows.map cdc) ∧
    (∀ a, (deriveNewCases t.rows).head? = some a → a.newCases = 0) ∧
    List.Chain' diffRel (deriveNewCases t.rows) := by
  refine ⟨?_, ?_, ?_, ?_, ?_⟩
  · simp [load, hd, hn, hc, hco]
  · exact sorted_computeDiff (List.sorted_insertionSort rowLE t.rows)
  · have h1 : (deriveNewCases t.rows).map cdc = (sortRows t.rows).map cdc :=
      diffAux_map_cdc _ none
    have h2 : ((sortRows t.rows).map cdc).Perm (t.rows.map cdc) :=
      (List.perm_insertionSort rowLE t.rows).map cdc
    rw [h1]
    exact h2
  · exact computeDiff_head_zero (sortRows t.rows)
  · exact diffAux_chain (sortRows t.rows) none

/-- Witness for C1 at the spec's example table: a single country with
Confirmed [10, 15, 15, 22], whose derived New_Cases column is
[0, 5, 0, 7]. -/
theorem new_cases_grouped_diff_witness :
    exTable.hasDate = true ∧ exTable.hasNewCases = false ∧
    exTable.hasConfirmed = true ∧ exTable.hasCountry = true ∧
    load exTable = Except.ok (deriveNewCases exTable.rows) ∧
    List.Sorted rowLE (deriveNewCases exTable.rows) ∧
    ((deriveNewCases exTable.rows).map cdc).Perm (exTable.rows.map cdc) ∧
    (∀ a, (deriveNewCases exTable.rows).head? = some a → a.newCases = 0) ∧
    List.Chain' diffRel (deriveNewCases exTable.rows) ∧
    (deriveNewCases exTable.rows).map Row.newCases = [0, 5, 0, 7] := by
  obtain ⟨h1, h2, h3, h4, h5⟩ := new_cases_grouped_diff exTable rfl rfl rfl rfl
  exact ⟨rfl, rfl, rfl, rfl, h1, h2, h3, h4, h5, by decide⟩

/-- Claim C2 (code bug): on a view emptied by the date range, the KPI
block does not return zeros; `int(df["New_Cases"].max())` is
`int(nan)` and raises a ValueError. -/
theorem empty_view_summary_raises :
    filterView c2Rows "A" 10 20 = [] ∧
    computeSummary (filterView c2Rows "A" 10 20) true =
      Except.error (PyError.valueError "cannot convert float NaN to integer") :=
  ⟨rfl, rfl⟩

/-- Counterexample to C3: with reversed bounds the filter returns the
empty view, not the view of the swapped bounds; no defensive swap is
performed by lines 73-77. -/
theorem reversed_bounds_not_swapped_cex :
    filterView c3Rows "A" 10 0 ≠ filterView c3Rows "A" 0 10 := by
  decide

/-- Claim C3 as amended: filtering with lower > upper yields the empty
view, because no date satisfies both inequality predicates. -/
theorem reversed_bounds_empty_view (rows : List Row) (c : String) (lo hi : Int)
    (h : hi < lo) : filterView rows c lo hi = [] := by
  refine List.filter_eq_nil_iff.mpr ?_
  intro a ha hm
  simp only [matchesSel, Bool.and_eq_true, beq_iff_eq, decide_eq_true_eq] at hm
  exact absurd (le_trans hm.1.2 hm.2) (not_le.mpr h)

/-- Witness for the amended C3 at the concrete reversed range [10, 0]. -/
theorem reversed_bounds_empty_view_witness :
    (0 : Int) < 10 ∧ filterView c3Rows "A" 10 0 = [] :=
  ⟨by decide, reversed_bounds_empty_view c3Rows "A" 10 0 (by decide)⟩

/-- Counterexample to C4: a table missing the Country column loads
successfully when New_Cases is present; the loader performs no schema
validation of Country. -/
theorem missing_country_loads_cex :
    c4NoCountryTable.hasCountry = false ∧ isOk (load c4NoCountryTable) = true := by
  decide

/-- Claim C4 as amended: a missing Date column makes the loader fail
with an uncaught KeyError naming Date; a missing Country column makes
it fail (KeyError naming Country) only when New_Cases is absent and
Confirmed present, and the load succeeds in the remaining cases. -/
theorem missing_column_key_errors (t : RawTable) :
    (t.hasDate = false → load t = Except.error (PyError.keyError "Date")) ∧
    (t.hasDate = true → t.hasCountry = false → t.hasNewCases = false →
      t.hasConfirmed = true → load t = Except.error (PyError.keyError "Country")) ∧
    (t.hasDate = true → t.hasNewCases = true → isOk (load t) = true) ∧
    (t.hasDate = true → t.hasNewCases = false → t.hasConfirmed = false →
      isOk (load t) = true) := by
  refine ⟨?_, ?_, ?_, ?_⟩
  · intro h1; simp [load, h1]
  · intro h1 h2 h3 h4; simp [load, h1, h2, h3, h4]
  · intro h1 h2; simp [load, isOk, h1, h2]
  · intro h1 h2 h3; simp [load, isOk, h1, h2, h3]

/-- Witness for the amended C4 at four concrete tables, one per case. -/
theorem missing_column_key_errors_witness :
    load c4NoDateTable = Except.error (PyError.keyError "Date") ∧
    load c4NoCountryConfTable = Except.error (PyError.keyError "Country") ∧
    isOk (load c4NoCountryTable) = true ∧
    isOk (load c4NeitherTable) = true :=
  ⟨(missing_column_key_errors c4NoDateTable).1 rfl,
   (missing_column_key_errors c4NoCountryConfTable).2.1 rfl rfl rfl rfl,
   (missing_column_key_errors c4NoCountryTable).2.2.1 rfl rfl,
   (missing_column_key_errors c4NeitherTable).2.2.2 rfl rfl rfl⟩

/-- Claim C5: when both New_Cases and Confirmed are absent, every row
of the loaded table has New_Cases 0, whatever the other columns hold. -/
theorem confirmed_absent_zero_new_cases (t : RawTable) (out : List Row)
    (hd : t.hasDate = true) (hn : t.hasNewCases = false)
    (hc : t.hasConfirmed = false) (hout : load t = Except.ok out) :
    ∀ r ∈ out, r.newCases = 0 := by
  simp only [load, hd, hn, hc, Bool.true_eq_false, Bool.false_eq_true, if_false,
    Except.ok.injEq] at hout
  subst hout
  intro r hr
  rcases List.mem_map.mp hr with ⟨x, hx, rfl⟩
  rfl

/-- Witness for C5 at a concrete two-row table with nonzero values in
the other columns. -/
theorem confirmed_absent_zero_new_cases_witness :
    c5Table.hasDate = true ∧ c5Table.hasNewCases = false ∧
    c5Table.hasConfirmed = false ∧
    (∀ r ∈ [Row.mk "A" 1 7 0 3, Row.mk "B" 2 8 0 4], r.newCases = 0) :=
  ⟨rfl, rfl, rfl,
    confirmed_absent_zero_new_cases c5Table [Row.mk "A" 1 7 0 3, Row.mk "B" 2 8 0 4]
      rfl rfl rfl rfl⟩

/-- Claim C6: with a date range covering every date of the table and a
country value present in it, the filter returns exactly the rows of
that country - the country-only filter of the table, so nothing is
dropped or duplicated. -/
theorem full_range_filter_exact_country_rows (rows : List Row) (c : String)
    (lo hi : Int) (_hpresent : ∃ r ∈ rows, r.country = c)
    (hcover : ∀ r ∈ rows, lo ≤ r.date ∧ r.date ≤ hi) :
    filterView rows c lo hi = rows.filter (fun r => r.country == c) := by
  refine List.filter_congr ?_
  intro x hx
  rcases hcover x hx with ⟨h1, h2⟩
  simp [matchesSel, h1, h2]

/-- Witness for C6 at a concrete three-row table over the full range. -/
theorem full_range_filter_exact_country_rows_witness :
    (∃ r ∈ c6Rows, r.country = "A") ∧ (∀ r ∈ c6Rows, 1 ≤ r.date ∧ r.date ≤ 3) ∧
    filterView c6Rows "A" 1 3 = c6Rows.filter (fun r => r.country == "A") :=
  ⟨by decide, by decide,
    full_range_filter_exact_country_rows c6Rows "A" 1 3 (by decide) (by decide)⟩

/-- Claim C7: an unknown country value yields the empty view and no
error. -/
theorem unknown_country_empty_view (rows : List Row) (c : String) (lo hi : Int)
    (h : ∀ r ∈ rows, r.country ≠ c) : filterView rows c lo hi = [] := by
  refine List.filter_eq_nil_iff.mpr ?_
  intro a ha hm
  apply h a ha
  simp only [matchesSel, Bool.and_eq_true, beq_iff_eq, decide_eq_true_eq] at hm
  exact hm.1.1

/-- Witness for C7 at a table with countries A and B, filtered on Z. -/
theorem unknown_country_empty_view_witness :
    (∀ r ∈ c7Rows, r.country ≠ "Z") ∧ filterView c7Rows "Z" 0 10 = [] :=
  ⟨by decide, unknown_country_empty_view c7Rows "Z" 0 10 (by decide)⟩

/-- Claim C8: the filter reads the Observation Table and binds its
result to the view; the table component of the state is unchanged. -/
theorem filter_preserves_table (s : DashState) (c : String) (lo hi : Int) :
    (runFilter s c lo hi).dfAll = s.dfAll := rfl

/-- Claim C9: the New_Cases derivation (sort by Country and Date, then
grouped diff) is idempotent. -/
theorem derive_new_cases_idempotent (rows : List Row) :
    deriveNewCases (deriveNewCases rows) = deriveNewCases rows := by
  have hs : List.Sorted rowLE (computeDiff (sortRows rows)) :=
    sorted_computeDiff (List.sorted_insertionSort rowLE rows)
  calc deriveNewCases (deriveNewCases rows)
      = computeDiff (sortRows (computeDiff (sortRows rows))) := rfl
    _ = computeDiff (computeDiff (sortRows rows)) := by
          rw [show sortRows (computeDiff (sortRows rows)) = computeDiff (sortRows rows)
            from List.Sorted.insertionSort_eq hs]
    _ = computeDiff (sortRows rows) := diffAux_idem _ none
    _ = deriveNewCases rows := rfl

/-- Claim C10: the view is an order-preserving subsequence of the
table, and each of its rows matches the selected country and lies
inside the inclusive date range. -/
theorem view_sublist_and_predicates (rows : List Row) (c : String) (lo hi : Int) :
    (filterView rows c lo hi).Sublist rows ∧
    ∀ r ∈ filterView rows c lo hi, r.country = c ∧ lo ≤ r.date ∧ r.date ≤ hi := by
  constructor
  · exact List.filter_sublist rows
  · intro r hr
    simp only [filterView] at hr
    have hm := (List.mem_filter.mp hr).2
    simp only [matchesSel, Bool.and_eq_true, beq_iff_eq, decide_eq_true_eq] at hm
    exact ⟨hm.1.1, hm.1.2, hm.2⟩
